import Mathlib

/-!
Verification of the `Simulator2` scheduling core (`BaseSimulator.py`).

The development shallowly embeds the data model and the operations of
`BaseSimulator`:

* input-event dispatch (`_on_mouse_3d`, `_on_key`) as a first-responder loop
  over per-node handler functions;
* the node registry (`register_node`, `get_nodes`) over a record of the
  simulator's mutable state, with traces of observable callback events;
* the thread-lifecycle operations (`start_computational_thread`,
  `stop_computational_thread`, `_quit`) as state transformers that also emit
  the trace of node callbacks, thread joins and spawns they perform;
* the cadence loop `_run_computational_loop` together with the UI thread's
  execution of posted `display` closures as a labelled small-step transition
  relation on a two-thread scheduler state.

Machine floats (`time.time()` values, `animation_delay_time`, `em`) are
modelled as rationals; Python thread identities are dropped and the worker
thread is represented by the flags the code itself consults.
-/

namespace Simulator2

/-- Result type of open3d widget event callbacks
(`gui.Widget.EventCallbackResult`). -/
inductive EventCallbackResult : Type
  | IGNORED
  | HANDLED
  | CONSUMED
deriving DecidableEq, Repr

/-- The two event-handler methods every node exposes to the dispatch loops of
`BaseSimulator` (`on_mouse_3d` and `on_key`); each is an arbitrary function
from the toolkit's event value to an `EventCallbackResult`. -/
structure NodeHandlers (ε κ : Type) : Type where
  on_mouse_3d : ε → EventCallbackResult
  on_key : κ → EventCallbackResult

/-- The first-responder loop shared by `BaseSimulator._on_mouse_3d` and
`BaseSimulator._on_key`:

    for node in self._computational_nodes:
        result = node.handler(event)
        if result == gui.Widget.EventCallbackResult.HANDLED:
            return result
    return gui.Widget.EventCallbackResult.IGNORED

The first component is the returned result; the second component records the
nodes whose handler was invoked, in invocation order. -/
def dispatchLoop {α : Type} (handler : α → EventCallbackResult) :
    List α → EventCallbackResult × List α
  | [] => (EventCallbackResult.IGNORED, [])
  | node :: rest =>
      if handler node = EventCallbackResult.HANDLED then
        (EventCallbackResult.HANDLED, [node])
      else
        let p := dispatchLoop handler rest
        (p.1, node :: p.2)

/-- `BaseSimulator._on_mouse_3d(event)` over the registered node list. -/
def _on_mouse_3d {ε κ : Type} (nodes : List (NodeHandlers ε κ)) (event : ε) :
    EventCallbackResult × List (NodeHandlers ε κ) :=
  dispatchLoop (fun node => node.on_mouse_3d event) nodes

/-- `BaseSimulator._on_key(event)` over the registered node list. -/
def _on_key {ε κ : Type} (nodes : List (NodeHandlers ε κ)) (event : κ) :
    EventCallbackResult × List (NodeHandlers ε κ) :=
  dispatchLoop (fun node => node.on_key event) nodes

/-- A registered node as the registry sees it: an identity (`name`), whether
it is an instance of `Nodes.VisualNode`, the `register` flag consulted by
`register_node` for visual nodes, and whether `n.simulator` has been set. -/
structure SimNode : Type where
  name : Nat
  visual : Bool
  register : Bool
  simulator_set : Bool
deriving DecidableEq, Repr

/-- Modelled from the spec: the class hierarchy of `Simulator2.Nodes` is not
under `src/` (only its importers are).  Per the spec ("variants are
'headless' (compute-only) and 'visual'") and the `get_nodes` docstring in the
source ("input is HeadlessNode because headless is base class"),
`HeadlessNode` is the base class of every node and `VisualNode` is its
subclass, so `isinstance(n, HeadlessNode)` holds for every node while
`isinstance(n, VisualNode)` holds exactly for visual nodes. -/
inductive NodeClass : Type
  | HeadlessNode
  | VisualNode
deriving DecidableEq, Repr

/-- Modelled from the spec: Python's `isinstance` over the two node classes,
with `VisualNode` a subclass of the base class `HeadlessNode`. -/
def isinstance (n : SimNode) (cl : NodeClass) : Bool :=
  match cl with
  | NodeClass.HeadlessNode => true
  | NodeClass.VisualNode => n.visual

/-- A child of the side panel: either the fixed-size spacer added by
`self.panel.add_fixed(self.em)` or a visual node added by
`self.panel.add_child(n)`. -/
inductive PanelChild : Type
  | fixed (size : ℚ)
  | child (n : SimNode)
deriving DecidableEq

/-- The mutable state of a `BaseSimulator` that the registry and
thread-lifecycle operations read and write: `self._computational_nodes`, the
flag `self._running.is_set()`, whether `self._computational_thread.start()`
has ever been called (joining a never-started Python thread raises
`RuntimeError`), the panel's and the window's child lists, and the font size
`self.em`. -/
structure SimState : Type where
  computational_nodes : List SimNode
  running : Bool
  thread_started : Bool
  panel_children : List PanelChild
  window_children : List SimNode
  em : ℚ
deriving DecidableEq

/-- `BaseSimulator.register_node(n)`:

    n.simulator = self
    self._computational_nodes.append(n)
    if isinstance(n, Nodes.VisualNode):
        if n.register:
            self.panel.add_fixed(self.em)
            self.panel.add_child(n)
        else:
            self.window.add_child(n)

No name-uniqueness check of any kind is performed. -/
def register_node (s : SimState) (n : SimNode) : SimState :=
  let n' := { n with simulator_set := true }
  let s1 := { s with computational_nodes := s.computational_nodes ++ [n'] }
  if isinstance n' NodeClass.VisualNode then
    if n'.register then
      { s1 with panel_children :=
          s1.panel_children ++ [PanelChild.fixed s.em, PanelChild.child n'] }
    else
      { s1 with window_children := s1.window_children ++ [n'] }
  else s1

/-- `BaseSimulator.get_nodes(cl)`: the registered nodes that satisfy
`isinstance(node, cl)`, in registration order. -/
def get_nodes (s : SimState) (cl : NodeClass) : List SimNode :=
  s.computational_nodes.filter (fun node => isinstance node cl)

/-- Observable events emitted by the lifecycle operations of
`BaseSimulator`: node callbacks, joining/spawning the computational thread,
clearing the registry, and `gui.Application.instance.quit()`. -/
inductive LEv : Type
  | on_exit (name : Nat)
  | on_start_computation_thread (name : Nat)
  | on_pause_computational_thread (name : Nat)
  | join
  | spawnThread
  | clearRegistry
  | appQuit
deriving DecidableEq, Repr

/-- `BaseSimulator.start_computational_thread()`:

    if not self._running.is_set():
        for node in self._computational_nodes:
            node.on_start_computation_thread()
        self._computational_thread = threading.Thread(target=self._run_computational_loop)
        self._running.set()
        self._computational_thread.start()

Returns the trace of emitted events and the successor state. -/
def start_computational_thread (s : SimState) : List LEv × SimState :=
  if s.running = false then
    (s.computational_nodes.map
        (fun n => LEv.on_start_computation_thread n.name) ++ [LEv.spawnThread],
     { s with running := true, thread_started := true })
  else ([], s)

/-- `BaseSimulator.stop_computational_thread()`:

    self._running.clear()
    self._computational_thread.join()
    for node in self._computational_nodes:
        node.on_pause_computational_thread()

There is no guard on the running flag: the clear, the join and the
`on_pause_computational_thread` fan-out happen unconditionally.  If the
thread object has never been started, `join()` raises `RuntimeError`
(modelled as `none`); otherwise the trace and successor state are returned. -/
def stop_computational_thread (s : SimState) : Option (List LEv × SimState) :=
  if s.thread_started then
    some (LEv.join ::
            s.computational_nodes.map
              (fun n => LEv.on_pause_computational_thread n.name),
          { s with running := false })
  else none

/-- `BaseSimulator._quit()` (the window-close handler):

    self.on_exit()
    for thread in threading.enumerate():
        print(thread.name)        # (debug print only, not modelled)
    if self._running.is_set():
        self._running.clear()
        self._computational_thread.join()
    self._computational_nodes.clear()
    gui.Application.instance.quit()

Note that it does NOT call `stop_computational_thread` and emits no
`on_pause_computational_thread` events. -/
def _quit (s : SimState) : List LEv × SimState :=
  let exitEvs := s.computational_nodes.map (fun n => LEv.on_exit n.name)
  if s.running then
    (exitEvs ++ [LEv.join, LEv.clearRegistry, LEv.appQuit],
     { s with running := false, computational_nodes := [] })
  else
    (exitEvs ++ [LEv.clearRegistry, LEv.appQuit],
     { s with computational_nodes := [] })

/-- The argument passed to `time.sleep` in the else branch of
`BaseSimulator._run_computational_loop`:

    time.sleep(now - self._last_animation_time - self.animation_delay_time)
-/
def loopSleepArg (now last delay : ℚ) : ℚ := now - last - delay

/-- The sleep duration the spec claims for the same branch, following its
words: "sleep until the next scheduled frame boundary (computed as
`last_frame_time + cadence_interval - now`)". -/
def claimedSleepArg (now last delay : ℚ) : ℚ := last + delay - now

/-- State of the two-thread scheduler while the computational loop runs:
the (fixed) registered node list, `self._running.is_set()`,
`self.main_thread_finished`, `self._last_animation_time`, the UI thread's
task queue of pending `display` closures (each tagged with the frame time
that produced it), whether the worker thread is still alive (a negative
`time.sleep` argument raises `ValueError` and kills it), and
`self.animation_delay_time`. -/
structure LoopState : Type where
  nodes : List SimNode
  running : Bool
  finished : Bool
  last : ℚ
  queue : List ℚ
  alive : Bool
  delay : ℚ
deriving DecidableEq

/-- Observable events of the cadence loop and of the UI thread running a
posted `display` closure. -/
inductive WEv : Type
  | step_headless (n : SimNode)
  | post_display (t : ℚ)
  | step_visual (n : SimNode)
  | display_done (t : ℚ)
  | sleep (d : ℚ)
  | crash
deriving DecidableEq

/-- The worker-side stepping of one frame:
`for node in self._computational_nodes: if not isinstance(node, Nodes.VisualNode): node.step()`,
as step events tagged with the node's position in the registry. -/
def headlessSteps (nodes : List SimNode) : List WEv :=
  (nodes.filter
      (fun node => !(isinstance node NodeClass.VisualNode))).map
    (fun node => WEv.step_headless node)

/-- The body of the posted `display` closure:
`for node in self._computational_nodes: if isinstance(node, Nodes.VisualNode): node.step()`. -/
def visualSteps (nodes : List SimNode) : List WEv :=
  (nodes.filter
      (fun node => isinstance node NodeClass.VisualNode)).map
    (fun node => WEv.step_visual node)

/-- The scheduler state at entry of `_run_computational_loop` right after
`start_computational_thread` spawned it: `self._last_animation_time = 0.0`,
`self.main_thread_finished = True`, empty UI task queue, running flag set. -/
def initLoop (nodes : List SimNode) (delay : ℚ) : LoopState :=
  { nodes := nodes, running := true, finished := true, last := 0,
    queue := [], alive := true, delay := delay }

/-- Labelled small-step relation of the two-thread scheduler.  `frame` is one
worker iteration taking the then branch (cadence condition holds): it records
`last`, steps the headless nodes, clears `main_thread_finished` and posts the
`display` closure.  `sleepStep`/`crashStep` are one worker iteration taking
the else branch, sleeping for `loopSleepArg` when it is nonnegative and dying
of `ValueError` when it is negative.  `displayStep` is the UI thread running
the head of its task queue: it steps the visual nodes and sets
`main_thread_finished`.  `stopSignal` is `self._running.clear()` performed by
another thread. -/
inductive WStep : LoopState → List WEv → LoopState → Prop
  | frame (s : LoopState) (now : ℚ)
      (hrun : s.running = true) (halive : s.alive = true)
      (hfin : s.finished = true) (hdue : s.last + s.delay ≤ now) :
      WStep s (headlessSteps s.nodes ++ [WEv.post_display now])
        { s with last := now, finished := false, queue := s.queue ++ [now] }
  | sleepStep (s : LoopState) (now : ℚ)
      (hrun : s.running = true) (halive : s.alive = true)
      (hguard : ¬(s.finished = true ∧ s.last + s.delay ≤ now))
      (hnn : 0 ≤ loopSleepArg now s.last s.delay) :
      WStep s [WEv.sleep (loopSleepArg now s.last s.delay)] s
  | crashStep (s : LoopState) (now : ℚ)
      (hrun : s.running = true) (halive : s.alive = true)
      (hguard : ¬(s.finished = true ∧ s.last + s.delay ≤ now))
      (hneg : loopSleepArg now s.last s.delay < 0) :
      WStep s [WEv.crash] { s with alive := false }
  | displayStep (s : LoopState) (t : ℚ) (rest : List ℚ)
      (hq : s.queue = t :: rest) :
      WStep s (visualSteps s.nodes ++ [WEv.display_done t])
        { s with queue := rest, finished := true }
  | stopSignal (s : LoopState) :
      WStep s [] { s with running := false }

/-- Executions of the scheduler: reflexive-transitive closure of `WStep`
accumulating the emitted trace. -/
inductive Exec (s0 : LoopState) : List WEv → LoopState → Prop
  | refl : Exec s0 [] s0
  | snoc {tr : List WEv} {s : LoopState} {b : List WEv} {s' : LoopState} :
      Exec s0 tr s → WStep s b s' → Exec s0 (tr ++ b) s'

/-- The timestamps of the frames produced along a trace, in order: the
arguments of its `post_display` events. -/
def frameTimes (tr : List WEv) : List ℚ :=
  tr.filterMap (fun e =>
    match e with
    | WEv.post_display t => some t
    | _ => none)

/-- The possible shapes of the trace emitted by one step of the scheduler:
a frame block (all headless steps, then the posting of the display task), a
display block (all visual steps, then completion), a nonnegative sleep, a
crash, or nothing. -/
def IsWorkerBlock (nodes : List SimNode) (b : List WEv) : Prop :=
  (∃ t, b = headlessSteps nodes ++ [WEv.post_display t])
  ∨ (∃ t, b = visualSteps nodes ++ [WEv.display_done t])
  ∨ (∃ d, 0 ≤ d ∧ b = [WEv.sleep d])
  ∨ b = [WEv.crash]
  ∨ b = []

/-- Inductive invariant of scheduler executions: the registry and cadence
interval are fixed; at most one display task is outstanding and none is while
`main_thread_finished` holds; successive frame timestamps are at least the
cadence interval apart; `_last_animation_time` is the last frame timestamp
(or its initial 0.0); and the trace decomposes into per-step blocks. -/
def MasterInv (nodes : List SimNode) (delay : ℚ) (tr : List WEv)
    (s : LoopState) : Prop :=
  s.nodes = nodes ∧ s.delay = delay ∧
  s.queue.length ≤ 1 ∧
  (s.finished = true → s.queue = []) ∧
  List.Chain' (fun a b => a + delay ≤ b) (frameTimes tr) ∧
  ((frameTimes tr = [] ∧ s.last = 0) ∨ (frameTimes tr).getLast? = some s.last) ∧
  (∃ blocks : List (List WEv), tr = blocks.flatten ∧
      ∀ b ∈ blocks, IsWorkerBlock nodes b)

lemma frameTimes_append (a b : List WEv) :
    frameTimes (a ++ b) = frameTimes a ++ frameTimes b := by
  simp [frameTimes]

lemma frameTimes_map_step_headless (l : List SimNode) :
    frameTimes (l.map (fun node => WEv.step_headless node)) = [] := by
  induction l with
  | nil => rfl
  | cons p t ih =>
      rw [List.map_cons]
      rw [show frameTimes (WEv.step_headless p :: t.map (fun node => WEv.step_headless node))
          = frameTimes (t.map (fun node => WEv.step_headless node)) from rfl]
      exact ih

lemma frameTimes_map_step_visual (l : List SimNode) :
    frameTimes (l.map (fun node => WEv.step_visual node)) = [] := by
  induction l with
  | nil => rfl
  | cons p t ih =>
      rw [List.map_cons]
      rw [show frameTimes (WEv.step_visual p :: t.map (fun node => WEv.step_visual node))
          = frameTimes (t.map (fun node => WEv.step_visual node)) from rfl]
      exact ih

lemma frameTimes_headlessSteps (ns : List SimNode) :
    frameTimes (headlessSteps ns) = [] :=
  frameTimes_map_step_headless _

lemma frameTimes_visualSteps (ns : List SimNode) :
    frameTimes (visualSteps ns) = [] :=
  frameTimes_map_step_visual _

lemma exec_masterInv {nodes : List SimNode} {delay : ℚ} {tr : List WEv}
    {s : LoopState} (h : Exec (initLoop nodes delay) tr s) :
    MasterInv nodes delay tr s := by
  induction h with
  | refl =>
      refine ⟨rfl, rfl, ?_, ?_, ?_, ?_, ⟨[], rfl, ?_⟩⟩
      · simp [initLoop]
      · intro _; rfl
      · simp [frameTimes]
      · exact Or.inl ⟨by simp [frameTimes], rfl⟩
      · intro b hb; exact absurd hb (List.not_mem_nil b)
  | @snoc tr0 s b0 s1 hexec hstep ih =>
      obtain ⟨hnodes, hdelay, hqlen, hqfin, hchain, hlast, blocks, hjoin, hblocks⟩ := ih
      cases hstep with
      | frame now hrun halive hfin hdue =>
          have hft : frameTimes (tr0 ++ (headlessSteps s.nodes ++ [WEv.post_display now]))
              = frameTimes tr0 ++ [now] := by
            rw [frameTimes_append, frameTimes_append, frameTimes_headlessSteps]
            simp [frameTimes]
          refine ⟨hnodes, hdelay, ?_, ?_, ?_, ?_, ?_⟩
          · have hq : s.queue = [] := hqfin hfin
            show (s.queue ++ [now]).length ≤ 1
            simp [hq]
          · intro hcontra
            simp at hcontra
          · rw [hft, List.chain'_append]
            refine ⟨hchain, List.chain'_singleton _, ?_⟩
            intro x hx y hy
            simp at hy
            subst hy
            rcases hlast with ⟨hempty, -⟩ | hsome
            · rw [hempty] at hx
              simp at hx
            · rw [hsome] at hx
              simp at hx
              subst hx
              calc s.last + delay = s.last + s.delay := by rw [hdelay]
                _ ≤ now := hdue
          · right
            rw [hft, List.getLast?_concat]
          · refine ⟨blocks ++ [headlessSteps s.nodes ++ [WEv.post_display now]],
              by rw [List.flatten_append, ← hjoin]; simp, ?_⟩
            intro c hc
            rcases List.mem_append.mp hc with hc | hc
            · exact hblocks c hc
            · simp only [List.mem_singleton] at hc
              subst hc
              exact Or.inl ⟨now, by rw [hnodes]⟩
      | sleepStep now hrun halive hguard hnn =>
          have hft : frameTimes (tr0 ++ [WEv.sleep (loopSleepArg now s.last s.delay)])
              = frameTimes tr0 := by
            rw [frameTimes_append]
            simp [frameTimes]
          refine ⟨hnodes, hdelay, hqlen, hqfin, by rw [hft]; exact hchain,
            by rw [hft]; exact hlast, ?_⟩
          refine ⟨blocks ++ [[WEv.sleep (loopSleepArg now s.last s.delay)]],
            by rw [List.flatten_append, ← hjoin]; simp, ?_⟩
          intro c hc
          rcases List.mem_append.mp hc with hc | hc
          · exact hblocks c hc
          · simp only [List.mem_singleton] at hc
            subst hc
            exact Or.inr (Or.inr (Or.inl ⟨_, hnn, rfl⟩))
      | crashStep now hrun halive hguard hneg =>
          have hft : frameTimes (tr0 ++ [WEv.crash]) = frameTimes tr0 := by
            rw [frameTimes_append]
            simp [frameTimes]
          refine ⟨hnodes, hdelay, hqlen, hqfin, by rw [hft]; exact hchain,
            by rw [hft]; exact hlast, ?_⟩
          refine ⟨blocks ++ [[WEv.crash]],
            by rw [List.flatten_append, ← hjoin]; simp, ?_⟩
          intro c hc
          rcases List.mem_append.mp hc with hc | hc
          · exact hblocks c hc
          · simp only [List.mem_singleton] at hc
            subst hc
            exact Or.inr (Or.inr (Or.inr (Or.inl rfl)))
      | displayStep t rest hq =>
          have hrest : rest = [] := by
            rw [hq] at hqlen
            simpa using hqlen
          have hft : frameTimes (tr0 ++ (visualSteps s.nodes ++ [WEv.display_done t]))
              = frameTimes tr0 := by
            rw [frameTimes_append, frameTimes_append, frameTimes_visualSteps]
            simp [frameTimes]
          refine ⟨hnodes, hdelay, ?_, ?_, by rw [hft]; exact hchain,
            by rw [hft]; exact hlast, ?_⟩
          · show rest.length ≤ 1
            simp [hrest]
          · intro _
            exact hrest
          · refine ⟨blocks ++ [visualSteps s.nodes ++ [WEv.display_done t]],
              by rw [List.flatten_append, ← hjoin]; simp, ?_⟩
            intro c hc
            rcases List.mem_append.mp hc with hc | hc
            · exact hblocks c hc
            · simp only [List.mem_singleton] at hc
              subst hc
              exact Or.inr (Or.inl ⟨t, by rw [hnodes]⟩)
      | stopSignal =>
          rw [List.append_nil]
          exact ⟨hnodes, hdelay, hqlen, hqfin, hchain, hlast, blocks, hjoin, hblocks⟩

lemma dispatchLoop_spec {α : Type} (handler : α → EventCallbackResult)
    (l : List α) :
    (dispatchLoop handler l).1
        = (if (l.map handler).contains EventCallbackResult.HANDLED then
            EventCallbackResult.HANDLED else EventCallbackResult.IGNORED)
  ∧ (dispatchLoop handler l).2
        = l.takeWhile (fun a => !(handler a == EventCallbackResult.HANDLED))
            ++ (l.dropWhile
                  (fun a => !(handler a == EventCallbackResult.HANDLED))).take 1 := by
  induction l with
  | nil => simp [dispatchLoop]
  | cons a t ih =>
      by_cases h : handler a = EventCallbackResult.HANDLED
      · simp [dispatchLoop, h, List.takeWhile_cons, List.dropWhile_cons]
      · have h' : ¬(EventCallbackResult.HANDLED = handler a) :=
          fun hh => h hh.symm
        simp [dispatchLoop, h, h', List.takeWhile_cons, List.dropWhile_cons,
          ih.1, ih.2]

/-- C7: event dispatch (for both mouse-in-3D and key events) is a strict
first-responder chain.  The result is `HANDLED` exactly when some node's
handler reports `HANDLED` and `IGNORED` otherwise (in particular when every
node reports `IGNORED`); the invoked nodes are exactly the registration-order
prefix up to and including the first node reporting `HANDLED` (all nodes when
none does), so no node after the first responder is ever invoked. -/
theorem event_dispatch_first_responder {ε κ : Type}
    (nodes : List (NodeHandlers ε κ)) (e : ε) (k : κ) :
    ((_on_mouse_3d nodes e).1
        = (if (nodes.map (fun n => n.on_mouse_3d e)).contains
              EventCallbackResult.HANDLED
            then EventCallbackResult.HANDLED else EventCallbackResult.IGNORED))
  ∧ (_on_mouse_3d nodes e).2
        = nodes.takeWhile
            (fun n => !(n.on_mouse_3d e == EventCallbackResult.HANDLED))
          ++ (nodes.dropWhile
                (fun n => !(n.on_mouse_3d e == EventCallbackResult.HANDLED))).take 1
  ∧ ((_on_key nodes k).1
        = (if (nodes.map (fun n => n.on_key k)).contains
              EventCallbackResult.HANDLED
            then EventCallbackResult.HANDLED else EventCallbackResult.IGNORED))
  ∧ (_on_key nodes k).2
        = nodes.takeWhile
            (fun n => !(n.on_key k == EventCallbackResult.HANDLED))
          ++ (nodes.dropWhile
                (fun n => !(n.on_key k == EventCallbackResult.HANDLED))).take 1 := by
  refine ⟨?_, ?_, ?_, ?_⟩
  · exact (dispatchLoop_spec (fun n => n.on_mouse_3d e) nodes).1
  · exact (dispatchLoop_spec (fun n => n.on_mouse_3d e) nodes).2
  · exact (dispatchLoop_spec (fun n => n.on_key k) nodes).1
  · exact (dispatchLoop_spec (fun n => n.on_key k) nodes).2

/-- C9: `register_node` appends the node (with its owner back-reference set)
to the end of the ordered registry in every case — no name-uniqueness check
is performed; exactly when the node is Visual with its `register` flag true,
a fixed-size spacer followed by the node is appended to the panel's child
list; when Visual with the flag false the node is added as a direct top-level
window child; in all other respects the state is unchanged. -/
theorem register_node_effects (s : SimState) (n : SimNode) :
    (register_node s n).computational_nodes
        = s.computational_nodes ++ [{ n with simulator_set := true }]
  ∧ (register_node s n).computational_nodes.length
        = s.computational_nodes.length + 1
  ∧ (register_node s n).panel_children
        = s.panel_children ++
            (if n.visual && n.register then
              [PanelChild.fixed s.em,
               PanelChild.child { n with simulator_set := true }]
             else [])
  ∧ (register_node s n).window_children
        = s.window_children ++
            (if n.visual && !n.register then [{ n with simulator_set := true }]
             else [])
  ∧ (register_node s n).running = s.running
  ∧ (register_node s n).thread_started = s.thread_started
  ∧ (register_node s n).em = s.em := by
  cases hv : n.visual <;> cases hr : n.register <;>
    simp [register_node, isinstance, hv, hr]

/-- C10: the typed lookup `get_nodes` selects by `isinstance`, which includes
subclasses: `get_nodes(HeadlessNode)` returns every registered node —
including Visual nodes — in registration order, so a Headless-only view is
not obtainable through it (with a single registered Visual node,
`get_nodes(HeadlessNode)` returns that node while the computation loop's
complementary test `not isinstance(node, VisualNode)` selects nothing). -/
theorem get_nodes_isinstance_includes_subclasses (s : SimState) :
    get_nodes s NodeClass.HeadlessNode = s.computational_nodes
  ∧ get_nodes ⟨[⟨7, true, true, true⟩], false, false, [], [], 1⟩
        NodeClass.HeadlessNode = [⟨7, true, true, true⟩]
  ∧ headlessSteps [⟨7, true, true, true⟩] = [] := by
  refine ⟨?_, rfl, rfl⟩
  simp [get_nodes, isinstance]

/-- C2: the else branch of the cadence loop does not sleep for
`last_frame_time + cadence_interval - now` as the spec claims: the source
passes the NEGATION of that quantity to `time.sleep`
(`now - self._last_animation_time - self.animation_delay_time`).  At
`now = 1/2`, `last_frame_time = 0`, `cadence_interval = 2` the code's
argument is `-3/2` (on which Python's `time.sleep` raises `ValueError`,
killing the worker thread), while the claimed duration is `3/2`. -/
theorem sleep_arg_negates_claimed_boundary :
    (∀ now last delay : ℚ,
        loopSleepArg now last delay = -(claimedSleepArg now last delay))
  ∧ loopSleepArg (1/2) 0 2 = -(3/2)
  ∧ claimedSleepArg (1/2) 0 2 = 3/2 := by
  refine ⟨fun now last delay => ?_,
    by norm_num [loopSleepArg], by norm_num [claimedSleepArg]⟩
  simp only [loopSleepArg, claimedSleepArg]
  ring

/-- C1 counterexample: in a concrete stopped state (running flag clear, the
worker thread started in a previous cycle) with one registered node, calling
`stop_computational_thread` joins the thread and DOES invoke
`on_pause_computational_thread` on that node — refuting the claim that for
every state with the running flag clear the stop operation changes nothing
and invokes `on_pause_computational_thread` on no registered node. -/
theorem stop_noop_claim_cex :
    (stop_computational_thread
        ⟨[⟨0, false, false, true⟩], false, true, [], [], 1⟩).map Prod.fst
      = some [LEv.join, LEv.on_pause_computational_thread 0]
  ∧ LEv.on_pause_computational_thread 0
      ∈ [LEv.join, LEv.on_pause_computational_thread 0] :=
  ⟨rfl, by simp⟩

/-- C1 (amended): `stop_computational_thread` has no guard on the running
flag.  Called when the scheduler is already stopped (running flag clear,
worker thread started in some previous cycle), it leaves the state unchanged
but is not a no-op towards the nodes: it joins the thread again and invokes
`on_pause_computational_thread` once more on every registered node, in
registration order. -/
theorem stop_when_stopped_invokes_pause (s : SimState)
    (h : s.running = false) (hs : s.thread_started = true) :
    stop_computational_thread s
      = some (LEv.join ::
                s.computational_nodes.map
                  (fun n => LEv.on_pause_computational_thread n.name), s) := by
  cases s
  subst hs
  simp_all [stop_computational_thread]

theorem stop_when_stopped_invokes_pause_witness :
    stop_computational_thread
        ⟨[⟨0, false, false, true⟩], false, true, [], [], 1⟩
      = some ([LEv.join, LEv.on_pause_computational_thread 0],
              ⟨[⟨0, false, false, true⟩], false, true, [], [], 1⟩) := by
  have h := stop_when_stopped_invokes_pause
    ⟨[⟨0, false, false, true⟩], false, true, [], [], 1⟩ rfl rfl
  simpa using h

/-- C4: the window-close handler `_quit` is idempotent: invoked twice in a
row from a Running state, the first call fans `on_exit` out to every
registered node (in order) and joins the worker exactly once; the second call
emits no node callback and no join, and leaves the state exactly as the first
call left it. -/
theorem quit_handler_idempotent (s : SimState) (h : s.running = true) :
    (_quit s).1 = s.computational_nodes.map (fun n => LEv.on_exit n.name)
        ++ [LEv.join, LEv.clearRegistry, LEv.appQuit]
  ∧ (_quit (_quit s).2).1 = [LEv.clearRegistry, LEv.appQuit]
  ∧ (_quit (_quit s).2).2 = (_quit s).2
  ∧ ((_quit s).1 ++ (_quit (_quit s).2).1).count LEv.join = 1 := by
  cases s
  subst h
  refine ⟨rfl, rfl, rfl, ?_⟩
  rename_i ns ts pc wc em
  have h0 : (ns.map (fun n => LEv.on_exit n.name)).count LEv.join = 0 := by
    rw [List.count_eq_zero]
    simp
  simp [_quit, List.count_append, h0]

theorem quit_handler_idempotent_witness :
    (_quit ⟨[⟨0, false, false, true⟩], true, true, [], [], 1⟩).1
        = [LEv.on_exit 0, LEv.join, LEv.clearRegistry, LEv.appQuit]
  ∧ (_quit (_quit ⟨[⟨0, false, false, true⟩], true, true, [], [], 1⟩).2).1
        = [LEv.clearRegistry, LEv.appQuit]
  ∧ (_quit (_quit ⟨[⟨0, false, false, true⟩], true, true, [], [], 1⟩).2).2
        = (_quit ⟨[⟨0, false, false, true⟩], true, true, [], [], 1⟩).2
  ∧ ((_quit ⟨[⟨0, false, false, true⟩], true, true, [], [], 1⟩).1
        ++ (_quit (_quit ⟨[⟨0, false, false, true⟩], true, true, [], [],
              1⟩).2).1).count LEv.join = 1 := by
  have h := quit_handler_idempotent
    ⟨[⟨0, false, false, true⟩], true, true, [], [], 1⟩ rfl
  simpa using h

/-- C5 counterexample: with one registered node (which received
`on_start_computation_thread` when the scheduler started) and the scheduler
Running, the close-handler trace is exactly
`[on_exit, join, clearRegistry, appQuit]` and contains no
`on_pause_computational_thread` event — refuting the claim that during window
close every such node receives `on_pause_computational_thread`. -/
theorem quit_pause_claim_cex :
    (_quit ⟨[⟨0, false, false, true⟩], true, true, [], [], 1⟩).1
        = [LEv.on_exit 0, LEv.join, LEv.clearRegistry, LEv.appQuit]
  ∧ LEv.on_pause_computational_thread 0
      ∉ (_quit ⟨[⟨0, false, false, true⟩], true, true, [], [], 1⟩).1 :=
  ⟨rfl, by simp [_quit]⟩

/-- C5 (amended): when the close handler runs while the scheduler is Running,
it clears the running flag and joins the worker inline (before the registry
is cleared), but it does NOT perform the scheduler-stop contract: it never
invokes `on_pause_computational_thread`, so no registered node — in
particular none that received `on_start_computation_thread` in that cycle —
receives the pause callback during window close. -/
theorem quit_running_skips_pause (s : SimState) (h : s.running = true) :
    (_quit s).1 = s.computational_nodes.map (fun n => LEv.on_exit n.name)
        ++ [LEv.join, LEv.clearRegistry, LEv.appQuit]
  ∧ (∀ i : Nat, LEv.on_pause_computational_thread i ∉ (_quit s).1)
  ∧ (_quit s).2.computational_nodes = [] := by
  cases s
  subst h
  refine ⟨rfl, ?_, rfl⟩
  intro i
  simp [_quit]

theorem quit_running_skips_pause_witness :
    (_quit ⟨[⟨0, false, false, true⟩], true, true, [], [], 1⟩).1
        = [LEv.on_exit 0, LEv.join, LEv.clearRegistry, LEv.appQuit]
  ∧ (∀ i : Nat, LEv.on_pause_computational_thread i
        ∉ (_quit ⟨[⟨0, false, false, true⟩], true, true, [], [], 1⟩).1)
  ∧ (_quit ⟨[⟨0, false, false, true⟩], true, true, [], [],
        1⟩).2.computational_nodes = [] := by
  have h := quit_running_skips_pause
    ⟨[⟨0, false, false, true⟩], true, true, [], [], 1⟩ rfl
  simpa using h

/-- C6: `start_computational_thread` is idempotent: from a stopped state,
the first call invokes `on_start_computation_thread` exactly once per
registered node (in registration order) and spawns exactly one worker thread;
the second call emits nothing and leaves the state unchanged. -/
theorem start_twice_single_spawn (s : SimState) (h : s.running = false) :
    (start_computational_thread s).1
        = s.computational_nodes.map
            (fun n => LEv.on_start_computation_thread n.name)
          ++ [LEv.spawnThread]
  ∧ (start_computational_thread (start_computational_thread s).2).1 = []
  ∧ (start_computational_thread (start_computational_thread s).2).2
        = (start_computational_thread s).2
  ∧ ((start_computational_thread s).1
        ++ (start_computational_thread
              (start_computational_thread s).2).1).count LEv.spawnThread = 1 := by
  cases s
  subst h
  refine ⟨rfl, rfl, rfl, ?_⟩
  rename_i ns ts pc wc em
  have h0 : (ns.map (fun n => LEv.on_start_computation_thread n.name)).count
      LEv.spawnThread = 0 := by
    rw [List.count_eq_zero]
    simp
  simp [start_computational_thread, List.count_append, h0]

theorem start_twice_single_spawn_witness :
    (start_computational_thread
        ⟨[⟨0, false, false, false⟩], false, false, [], [], 1⟩).1
      = [LEv.on_start_computation_thread 0, LEv.spawnThread]
  ∧ (start_computational_thread (start_computational_thread
        ⟨[⟨0, false, false, false⟩], false, false, [], [], 1⟩).2).1 = []
  ∧ (start_computational_thread (start_computational_thread
        ⟨[⟨0, false, false, false⟩], false, false, [], [], 1⟩).2).2
      = (start_computational_thread
          ⟨[⟨0, false, false, false⟩], false, false, [], [], 1⟩).2
  ∧ ((start_computational_thread
        ⟨[⟨0, false, false, false⟩], false, false, [], [], 1⟩).1
      ++ (start_computational_thread (start_computational_thread
            ⟨[⟨0, false, false, false⟩], false, false, [], [],
              1⟩).2).1).count LEv.spawnThread = 1 := by
  have h := start_twice_single_spawn
    ⟨[⟨0, false, false, false⟩], false, false, [], [], 1⟩ rfl
  simpa using h

/-- C3: at every reachable state of the scheduler's step relation, at most
one Visual-node-step (`display`) task is outstanding on the UI task queue: a
new task is posted only when `main_thread_finished` holds (the frame-in-
flight flag is clear), posting clears the flag, and only the completion of
the posted task sets it again. -/
theorem at_most_one_outstanding_display_task (nodes : List SimNode)
    (delay : ℚ) (tr : List WEv) (s : LoopState)
    (h : Exec (initLoop nodes delay) tr s) :
    s.queue.length ≤ 1 :=
  (exec_masterInv h).2.2.1

theorem at_most_one_outstanding_display_task_witness :
    ({ initLoop [⟨0, false, false, true⟩] 2 with last := 3, finished := false, queue := (initLoop [⟨0, false, false, true⟩] 2).queue ++ [3] } : LoopState).queue.length ≤ 1 :=
  at_most_one_outstanding_display_task [⟨0, false, false, true⟩] 2 _ _
    (Exec.snoc Exec.refl
      (WStep.frame (initLoop [⟨0, false, false, true⟩] 2) 3 rfl rfl rfl
        (by norm_num [initLoop])))

/-- C8: along every execution of the cadence loop, successive frame
timestamps are at least the cadence interval apart (`Chain'` over the
posted frame times), and the trace decomposes into per-step blocks: within
each frame block, every Headless-only node is stepped on the worker thread,
in registration order, strictly before the Visual-node `display` task for
that frame is posted to the UI thread. -/
theorem cadence_spacing_and_frame_order (nodes : List SimNode) (delay : ℚ)
    (tr : List WEv) (s : LoopState)
    (h : Exec (initLoop nodes delay) tr s) :
    List.Chain' (fun a b => a + delay ≤ b) (frameTimes tr)
  ∧ ∃ blocks : List (List WEv), tr = blocks.flatten
      ∧ ∀ b ∈ blocks, IsWorkerBlock nodes b :=
  ⟨(exec_masterInv h).2.2.2.2.1, (exec_masterInv h).2.2.2.2.2.2⟩

theorem cadence_spacing_and_frame_order_witness :
    List.Chain' (fun a b : ℚ => a + 2 ≤ b)
      (frameTimes [WEv.step_headless ⟨0, false, false, true⟩,
        WEv.post_display 3, WEv.display_done 3,
        WEv.step_headless ⟨0, false, false, true⟩, WEv.post_display 5])
  ∧ ∃ blocks : List (List WEv),
      [WEv.step_headless ⟨0, false, false, true⟩, WEv.post_display 3,
        WEv.display_done 3, WEv.step_headless ⟨0, false, false, true⟩,
        WEv.post_display 5] = blocks.flatten
      ∧ ∀ b ∈ blocks, IsWorkerBlock [⟨0, false, false, true⟩] b := by
  have h := cadence_spacing_and_frame_order [⟨0, false, false, true⟩] 2 _ _
    (Exec.snoc (Exec.snoc (Exec.snoc Exec.refl
      (WStep.frame (initLoop [⟨0, false, false, true⟩] 2) 3 rfl rfl rfl
        (by norm_num [initLoop])))
      (WStep.displayStep _ 3 [] rfl))
      (WStep.frame _ 5 rfl rfl rfl (by show (3 : ℚ) + 2 ≤ 5; norm_num)))
  simpa [initLoop, headlessSteps, visualSteps, isinstance] using h

end Simulator2
